import Mathlib

/-!
Shallow embedding of pyrx (src/pyrx.py), a Python implementation of the Rx
schema/validation system, together with proofs about the claims of its
specification.

Modelling conventions:
* JSON-like Python values (None, bool, int/float, str, list/tuple, dict with
  string keys) are the inductive `Value`.  Python numbers are modelled as
  rationals; Python `int` and `float` collapse into one constructor because
  every operation the source performs on numbers (comparison, equality,
  `% 1`) treats `5` and `5.0` alike.  Python `bool` is kept as a separate
  constructor: the source always tests `isinstance(value, bool)` explicitly
  before treating something as a number.
* Python dicts are association lists with string keys; lookup is first
  match, assignment keeps the position of an existing key (Python dicts have
  unique keys, which compiled registries and JSON-like data always satisfy).
* Exceptions are modelled with `Except PyErr`; `PyErr` distinguishes the
  library error `RxError` from the interpreter errors the source can also
  raise (KeyError, ValueError, TypeError, AttributeError).  Python 3
  semantics are used throughout (ordering a number against a non-number
  raises TypeError).
* `make_schema` recursion goes through learned aliases, so it takes explicit
  fuel; running out of fuel is the `recursionError` outcome, mirroring
  Python's RecursionError on a hypothetical cyclic alias.
-/

/-- Python errors the source can raise.  `rxError` is pyrx's own RxError
class (the single compile-time error kind of the spec); the other
constructors are ordinary interpreter exceptions. -/
inductive PyErr where
  | rxError (msg : String)
  | valueError
  | keyError
  | typeError
  | attributeError
  | recursionError
deriving DecidableEq

/-- Is this pyrx's own RxError (the compile-error kind), as opposed to an
interpreter exception? -/
def PyErr.isRx : PyErr → Bool
  | .rxError _ => true
  | _ => false

/-- JSON-like values: the data model both for schema definitions and for the
values being checked. -/
inductive Value where
  | null
  | bool (b : Bool)
  | num (q : ℚ)
  | str (s : String)
  | arr (xs : List Value)
  | dict (m : List (String × Value))

/-- Python truthiness of a JSON-like value. -/
def truthy : Value → Bool
  | .null => false
  | .bool b => b
  | .num q => q != 0
  | .str s => !s.isEmpty
  | .arr xs => !xs.isEmpty
  | .dict m => !m.isEmpty

/-- Is the value None? (Python `value is None`.) -/
def Value.isNull : Value → Bool
  | .null => true
  | _ => false

/-- Is the value a mapping? (Python `isinstance(value, dict)`.) -/
def Value.isDict : Value → Bool
  | .dict _ => true
  | _ => false

/-- Python dict lookup, `d.get(k)` / `d[k]`: first matching key. -/
def dictGet {α : Type} : List (String × α) → String → Option α
  | [], _ => none
  | (k, v) :: rest, key => if k = key then some v else dictGet rest key

/-- Python dict assignment `d[k] = v`: overwrite in place when the key
exists, append otherwise. -/
def dictSet {α : Type} (m : List (String × α)) (k : String) (v : α) :
    List (String × α) :=
  if (dictGet m k).isSome then
    m.map (fun p => if p.1 = k then (k, v) else p)
  else m ++ [(k, v)]

/-- Do the keys of the mapping all come from `allowed`?
(`set(schema.keys()) <= set(allowed)`.) -/
def keysSub (entries : List (String × Value)) (allowed : List String) : Bool :=
  entries.all (fun p => p.1 ∈ allowed)

/-- Python `len(value)` — defined for strings, lists and dicts, a TypeError
otherwise. -/
def pyLen : Value → Except PyErr Nat
  | .str s => .ok s.length
  | .arr xs => .ok xs.length
  | .dict m => .ok m.length
  | _ => .error .typeError

/-- Python iteration `for x in value`: the elements of a list, the
characters of a string (as one-character strings), the keys of a dict; a
TypeError for anything else. -/
def pyIter : Value → Except PyErr (List Value)
  | .arr xs => .ok xs
  | .str s => .ok (s.toList.map (fun c => .str (String.singleton c)))
  | .dict m => .ok (m.map (fun p => .str p.1))
  | _ => .error .typeError

/-- Python-3 comparison `a < b` of a number against a JSON-like value: a
bool counts as 0/1, any non-number raises TypeError. -/
def pyLt (a : ℚ) : Value → Except PyErr Bool
  | .num b => .ok (decide (a < b))
  | .bool b => .ok (decide (a < (if b then 1 else 0)))
  | _ => .error .typeError

/-- Python-3 comparison `a <= b` of a number against a JSON-like value. -/
def pyLe (a : ℚ) : Value → Except PyErr Bool
  | .num b => .ok (decide (a ≤ b))
  | .bool b => .ok (decide (a ≤ (if b then 1 else 0)))
  | _ => .error .typeError

/-- Python-3 comparison `a >= b` of a number against a JSON-like value. -/
def pyGe (a : ℚ) : Value → Except PyErr Bool
  | .num b => .ok (decide (b ≤ a))
  | .bool b => .ok (decide ((if b then (1 : ℚ) else 0) ≤ a))
  | _ => .error .typeError

/-- Python-3 comparison `a > b` of a number against a JSON-like value. -/
def pyGt (a : ℚ) : Value → Except PyErr Bool
  | .num b => .ok (decide (b < a))
  | .bool b => .ok (decide ((if b then (1 : ℚ) else 0) < a))
  | _ => .error .typeError

/-- Python `value % 1` for a number (the fractional part, in `[0, 1)`). -/
def pyModOne (q : ℚ) : ℚ := q - (⌊q⌋ : ℚ)

/-- The bound dictionary captured by `Util.make_range_check`: the values
stored under the keys min, min-ex, max-ex, max.  The bound values are
arbitrary `Value`s — `make_range_check` never inspects them. -/
structure RangeDict where
  min : Option Value
  minEx : Option Value
  maxEx : Option Value
  max : Option Value

/-- `Util.make_range_check(opt)`: every key of `opt` must be one of
min/max/min-ex/max-ex (ValueError otherwise); the captured bounds make up
the returned closure.  A non-dict argument has no `.keys()`
(AttributeError). -/
def make_range_check (v : Value) : Except PyErr RangeDict :=
  match v with
  | .dict entries =>
      entries.foldlM
        (fun (r : RangeDict) p =>
          if p.1 = "min" then .ok { r with min := some p.2 }
          else if p.1 = "max" then .ok { r with max := some p.2 }
          else if p.1 = "min-ex" then .ok { r with minEx := some p.2 }
          else if p.1 = "max-ex" then .ok { r with maxEx := some p.2 }
          else .error .valueError)
        ⟨none, none, none, none⟩
  | _ => .error .attributeError

/-- The closure `check_range(value)` returned by `Util.make_range_check`:
reject when `value < min`, `value <= min-ex`, `value >= max-ex` or
`value > max`; a bound that is absent or None imposes no constraint.
Comparing against a non-numeric bound raises (Python 3). -/
def check_range (r : RangeDict) (value : ℚ) : Except PyErr Bool :=
  match r.min with
  | some b =>
      if b.isNull then check_range_minEx r value
      else
        match pyLt value b with
        | .error e => .error e
        | .ok t => if t then .ok false else check_range_minEx r value
  | none => check_range_minEx r value
where
  /-- the `min-ex` clause of `check_range` -/
  check_range_minEx (r : RangeDict) (value : ℚ) : Except PyErr Bool :=
    match r.minEx with
    | some b =>
        if b.isNull then check_range_maxEx r value
        else
          match pyLe value b with
          | .error e => .error e
          | .ok t => if t then .ok false else check_range_maxEx r value
    | none => check_range_maxEx r value
  /-- the `max-ex` clause of `check_range` -/
  check_range_maxEx (r : RangeDict) (value : ℚ) : Except PyErr Bool :=
    match r.maxEx with
    | some b =>
        if b.isNull then check_range_max r value
        else
          match pyGe value b with
          | .error e => .error e
          | .ok t => if t then .ok false else check_range_max r value
    | none => check_range_max r value
  /-- the `max` clause of `check_range` -/
  check_range_max (r : RangeDict) (value : ℚ) : Except PyErr Bool :=
    match r.max with
    | some b =>
        if b.isNull then .ok true
        else
          match pyGt value b with
          | .error e => .error e
          | .ok t => if t then .ok false else .ok true
    | none => .ok true

/-- Compiled validator trees: one constructor per builtin kind, holding the
compiled parameters exactly as the corresponding Python instance stores
them. -/
inductive Schema where
  | all (alts : List Schema)
  | any (alts : Option (List Schema))
  | arr (contents : Schema) (length : Option RangeDict)
  | bool
  | defT
  | fail
  | int (value : Option ℚ) (range : Option RangeDict)
  | map (values : Schema)
  | nil
  | num (value : Option ℚ) (range : Option RangeDict)
  | one
  | recT (required : List (String × Schema)) (optional : List (String × Schema))
      (rest : Option Schema) (known : List String)
  | seq (contents : List Schema) (tail : Option Schema)
  | str (value : Option String) (length : Option RangeDict)

/-- `if (not self.value is None) and value != self.value: return False` for
the numeric literal parameter of //int and //num. -/
def litOk (val : Option ℚ) (q : ℚ) : Bool :=
  match val with
  | none => true
  | some c => decide (q = c)

/-- The tail of `StrType.check`: `if self.length and not
self.length(len(value)): return False; return True`. -/
def strLenCheck (len : Option RangeDict) (s : String) : Except PyErr Bool :=
  match len with
  | none => .ok true
  | some r =>
      match check_range r ((s.length : ℚ)) with
      | .error e => .error e
      | .ok lb => .ok lb

/-- `IntType.check` on a numeric, non-boolean value: zero fractional part,
then the range, then the literal. -/
def intCheckNum (val : Option ℚ) (rng : Option RangeDict) (q : ℚ) : Except PyErr Bool :=
  if pyModOne q != 0 then .ok false
  else
    match rng with
    | some r =>
        (match check_range r q with
         | .error e => .error e
         | .ok rb => if !rb then .ok false else .ok (litOk val q))
    | none => .ok (litOk val q)

/-- `NumType.check` on a numeric, non-boolean value: the range, then the
literal. -/
def numCheckNum (val : Option ℚ) (rng : Option RangeDict) (q : ℚ) : Except PyErr Bool :=
  match rng with
  | some r =>
      (match check_range r q with
       | .error e => .error e
       | .ok rb => if !rb then .ok false else .ok (litOk val q))
  | none => .ok (litOk val q)

/-- `StrType.check` on a text value: the literal, then the length range. -/
def strCheckStr (val : Option String) (len : Option RangeDict) (s : String) :
    Except PyErr Bool :=
  match val with
  | some c => if s ≠ c then .ok false else strLenCheck len s
  | none => strLenCheck len s

/-- The `unknown` list of `RecType.check`: the entries of the value whose
field name is in neither `required` nor `optional`. -/
def recUnknown (known : List String) (entries : List (String × Value)) :
    List (String × Value) :=
  entries.filter (fun p => !(known.contains p.1))

/-- The early rejection of `RecType.check`:
`if len(unknown) and not self.rest_schema: return False`. -/
def recNoRest (known : List String) (rest : Option Schema)
    (entries : List (String × Value)) : Bool :=
  !(recUnknown known entries).isEmpty && rest.isNone

/-- Boolean `a < b` on lengths (`len(value) < len(self.content_schema)`). -/
def lenLt (a b : Nat) : Bool := decide (a < b)

mutual

/-- `check(value)` of a compiled validator: the recursive walk of the tree
against the value, True/False, raising only when a range comparison hits a
non-numeric bound. -/
def check : Schema → Value → Except PyErr Bool
  | .all alts, v => checkAll alts v
  | .any alts, v =>
      match alts with
      | none => .ok true
      | some as => checkAny as v
  | .arr c len, v =>
      match v with
      | .arr xs =>
          (match len with
           | some r =>
               (match check_range r ((xs.length : ℚ)) with
                | .error e => .error e
                | .ok false => .ok false
                | .ok true => checkElems c xs)
           | none => checkElems c xs)
      | _ => .ok false
  | .bool, v => .ok (match v with | .bool _ => true | _ => false)
  | .defT, v => .ok (!v.isNull)
  | .fail, _ => .ok false
  | .int val rng, v =>
      match v with
      | .num q => intCheckNum val rng q
      | _ => .ok false
  | .map vs, v =>
      match v with
      | .dict entries => checkElems vs (entries.map Prod.snd)
      | _ => .ok false
  | .nil, v => .ok v.isNull
  | .num val rng, v =>
      match v with
      | .num q => numCheckNum val rng q
      | _ => .ok false
  | .one, v =>
      .ok (match v with | .num _ => true | .str _ => true | .bool _ => true | _ => false)
  | .recT req opt rest known, v =>
      match v with
      | .dict entries =>
          have hk : 0 < sizeOf known := by cases known <;> simp_arith
          (match recNoRest known rest entries with
           | true => .ok false
           | false => checkRecFields req opt rest known entries)
      | _ => .ok false
  | .seq contents tail, v =>
      match v with
      | .arr xs =>
          (match lenLt xs.length contents.length with
           | true => .ok false
           | false =>
               match checkZip contents xs with
               | .error e => .error e
               | .ok false => .ok false
               | .ok true =>
                   match lenLt contents.length xs.length with
                   | false => .ok true
                   | true =>
                       match tail with
                       | none => .ok false
                       | some t =>
                           (match check t (.arr (xs.drop contents.length)) with
                            | .error e => .error e
                            | .ok false => .ok false
                            | .ok true => .ok true))
      | _ => .ok false
  | .str val len, v =>
      match v with
      | .str s => strCheckStr val len s
      | _ => .ok false
termination_by s v => (sizeOf s, 0)

/-- The //all loop: every alternative must accept the value (early exit on
the first failure, as in the source). -/
def checkAll : List Schema → Value → Except PyErr Bool
  | [], _ => .ok true
  | s :: ss, v =>
      match check s v with
      | .error e => .error e
      | .ok false => .ok false
      | .ok true => checkAll ss v
termination_by ss v => (sizeOf ss, 0)

/-- The //any loop: some alternative must accept the value. -/
def checkAny : List Schema → Value → Except PyErr Bool
  | [], _ => .ok false
  | s :: ss, v =>
      match check s v with
      | .error e => .error e
      | .ok true => .ok true
      | .ok false => checkAny ss v
termination_by ss v => (sizeOf ss, 0)

/-- The //arr and //map loop: one schema checked against every element. -/
def checkElems : Schema → List Value → Except PyErr Bool
  | _, [] => .ok true
  | c, x :: xs =>
      match check c x with
      | .error e => .error e
      | .ok false => .ok false
      | .ok true => checkElems c xs
termination_by c xs => (sizeOf c, xs.length + 1)

/-- The //seq loop: positional check of the first `len contents` elements
(the caller has already ensured the value is long enough). -/
def checkZip : List Schema → List Value → Except PyErr Bool
  | [], _ => .ok true
  | _ :: _, [] => .ok true
  | s :: ss, x :: xs =>
      match check s x with
      | .error e => .error e
      | .ok false => .ok false
      | .ok true => checkZip ss xs
termination_by ss xs => (sizeOf ss, 0)

/-- The //rec required loop: each field must be present and valid. -/
def checkReq : List (String × Schema) → List (String × Value) → Except PyErr Bool
  | [], _ => .ok true
  | (fld, s) :: rest, entries =>
      match dictGet entries fld with
      | none => .ok false
      | some w =>
          match check s w with
          | .error e => .error e
          | .ok false => .ok false
          | .ok true => checkReq rest entries
termination_by rs entries => (sizeOf rs, 0)

/-- The //rec optional loop: each present field must be valid. -/
def checkOpt : List (String × Schema) → List (String × Value) → Except PyErr Bool
  | [], _ => .ok true
  | (fld, s) :: rest, entries =>
      match dictGet entries fld with
      | none => checkOpt rest entries
      | some w =>
          match check s w with
          | .error e => .error e
          | .ok false => .ok false
          | .ok true => checkOpt rest entries
termination_by rs entries => (sizeOf rs, 0)

/-- `RecType.check` after the early rejection: run the required loop, then
continue. -/
def checkRecFields (req opt : List (String × Schema)) (rest : Option Schema)
    (known : List String) (entries : List (String × Value)) : Except PyErr Bool :=
  have hq : 0 < sizeOf req := by cases req <;> simp_arith
  match checkReq req entries with
  | .error e => .error e
  | .ok false => .ok false
  | .ok true => checkRecOpt opt rest known entries
termination_by (sizeOf req + sizeOf opt + sizeOf rest + 1, 0)

/-- `RecType.check` after the required loop: run the optional loop, then
continue. -/
def checkRecOpt (opt : List (String × Schema)) (rest : Option Schema)
    (known : List String) (entries : List (String × Value)) : Except PyErr Bool :=
  have ho : 0 < sizeOf opt := by cases opt <;> simp_arith
  match checkOpt opt entries with
  | .error e => .error e
  | .ok false => .ok false
  | .ok true => checkRecRest rest known entries
termination_by (sizeOf opt + sizeOf rest + 1, 0)

/-- `RecType.check` after the field loops: when unknown fields exist, the
sub-mapping of exactly those fields must satisfy `rest`. -/
def checkRecRest (rest : Option Schema) (known : List String)
    (entries : List (String × Value)) : Except PyErr Bool :=
  match recUnknown known entries with
  | [] => .ok true
  | p :: ps =>
      match rest with
      | some rs =>
          (match check rs (.dict (p :: ps)) with
           | .error e => .error e
           | .ok false => .ok false
           | .ok true => .ok true)
      | none => .ok false
termination_by (sizeOf rest + 1, 0)

end

/-- A character of Python's regex class `\w` (ASCII range). -/
def isWordChar (c : Char) : Bool := c.isAlphanum || c = '_'

/-- A character of the regex class `[-._a-z0-9]` used for type names. -/
def isLocalChar (c : Char) : Bool :=
  (('a' ≤ c && c ≤ 'z') || ('0' ≤ c && c ≤ '9')) || ((c = '-' || c = '.') || c = '_')

/-- Does `re.match('^\w+:', s)` succeed: one or more word characters
followed by a colon at the start of the string? -/
def matchScheme (s : String) : Bool :=
  match s.toList.span isWordChar with
  | (pre, rest) =>
      !pre.isEmpty && (match rest with | ':' :: _ => true | _ => false)

/-- `re.match('^/([-._a-z0-9]*)/([-._a-z0-9]+)$', s)`: the two captured
groups when the whole string has that shape. -/
def matchTypeName (s : String) : Option (String × String) :=
  match s.toList with
  | '/' :: rest =>
      (match rest.span isLocalChar with
       | (g1, '/' :: g2) =>
           if !g2.isEmpty && g2.all isLocalChar then
             some (String.mk g1, String.mk g2)
           else none
       | _ => none)
  | _ => none

/-- The fourteen builtin validator kinds (`core_types` of the source). -/
inductive CoreType where
  | all | anyT | arr | bool | defT | fail | int
  | map | nil | num | one | recT | seq | str
deriving DecidableEq

/-- `subname()` of each builtin class: the last path segment of its URI. -/
def subname : CoreType → String
  | .all => "all"
  | .anyT => "any"
  | .arr => "arr"
  | .bool => "bool"
  | .defT => "def"
  | .fail => "fail"
  | .int => "int"
  | .map => "map"
  | .nil => "nil"
  | .num => "num"
  | .one => "one"
  | .recT => "rec"
  | .seq => "seq"
  | .str => "str"

/-- `_CoreType.uri()`: the fixed URI of a builtin. -/
def coreURI (t : CoreType) : String :=
  "tag:codesimply.com,2008:rx/core/" ++ subname t

/-- A type-registry entry: a builtin validator class, or a learned alias
stored as the dict `\x7b"schema": definition\x7d`.  Both are truthy Python
objects (a class, a nonempty dict), so `registry.get(uri)` is truthy
exactly when the key is present. -/
inductive RegEntry where
  | builtin (t : CoreType)
  | alias (schema : Value)

/-- The `Factory`: a prefix registry (alias name to URI base) and a type
registry (URI to entry). -/
structure Factory where
  prefix_registry : List (String × String)
  type_registry : List (String × RegEntry)

/-- `Factory.__init__` before optional core-type registration: the two
builtin prefix aliases, an empty type registry. -/
def baseFactory : Factory :=
  ⟨[("", "tag:codesimply.com,2008:rx/core/"),
    (".meta", "tag:codesimply.com,2008:rx/meta/")], []⟩

/-- `Factory.expand_uri(type_name)`: absolute names (`scheme:...`) pass
through; otherwise the name must be `/<pre>/<local>` with a registered,
truthy base for `<pre>`.  A non-string argument makes `re.match` raise
TypeError. -/
def expand_uri (f : Factory) (tv : Value) : Except PyErr String :=
  match tv with
  | .str type_name =>
      if matchScheme type_name then .ok type_name
      else
        match matchTypeName type_name with
        | none => .error (.rxError ("couldnt understand type name " ++ type_name))
        | some (pre, loc) =>
            match dictGet f.prefix_registry pre with
            | none => .error (.rxError ("unknown prefix " ++ pre ++ " in type name " ++ type_name))
            | some base =>
                if base.isEmpty then
                  .error (.rxError ("unknown prefix " ++ pre ++ " in type name " ++ type_name))
                else .ok (base ++ loc)
  | _ => .error .typeError

/-- `Factory.add_prefix(name, base)`: raise when the name is registered
with a truthy base, store the mapping otherwise. -/
def add_prefix (f : Factory) (name base : String) : Except PyErr Factory :=
  if (match dictGet f.prefix_registry name with
      | some b => !b.isEmpty
      | none => false) then
    .error (.rxError ("the prefix " ++ name ++ " is already registered"))
  else .ok { f with prefix_registry := dictSet f.prefix_registry name base }

/-- `Factory.register_type(t)`: register a builtin under its fixed URI,
raising ValueError when the URI already has an entry. -/
def register_type (f : Factory) (t : CoreType) : Except PyErr Factory :=
  if (dictGet f.type_registry (coreURI t)).isSome then .error .valueError
  else .ok { f with type_registry := f.type_registry ++ [(coreURI t, .builtin t)] }

/-- The `core_types` list of the source, in its order. -/
def core_types : List CoreType :=
  [.all, .anyT, .arr, .bool, .defT, .fail, .int,
   .map, .nil, .num, .one, .recT, .seq, .str]

/-- The loop of `Factory.__init__` with `register_core_types`: register
each core type in turn. -/
def registerAll : Factory → List CoreType → Except PyErr Factory
  | f, [] => .ok f
  | f, t :: ts =>
      match register_type f t with
      | .error e => .error e
      | .ok f2 => registerAll f2 ts

/-- `Factory(\x7b"register_core_types": True\x7d)`: the factory with all
fourteen builtins registered. -/
def coreFactory : Factory :=
  match registerAll baseFactory core_types with
  | .ok f => f
  | .error _ => baseFactory

/-- `Factory.make_schema(schema)`: a bare string becomes `\x7b"type": s\x7d`;
a non-mapping is the invalid-schema RxError; a mapping is looked up by its
(expanded) `"type"` — a missing `"type"` key raises KeyError, an unknown
URI the unknown-type RxError.  An alias entry takes no other keys and
recompiles its stored definition; a builtin entry runs the corresponding
class constructor.  `fuel` bounds the alias recursion depth (Python relies
on the interpreter recursion limit there); every structurally recursive
descent into sub-definitions also spends one unit. -/
def make_schema (fuel : Nat) (f : Factory) (schemaV : Value) : Except PyErr Schema :=
  match fuel with
  | 0 => .error .recursionError
  | fuel + 1 =>
    let sv : Value :=
      match schemaV with
      | .str s => .dict [("type", .str s)]
      | v => v
    match sv with
    | .dict entries =>
        (match dictGet entries "type" with
         | none => .error .keyError
         | some tv =>
             match expand_uri f tv with
             | .error e => .error e
             | .ok uri =>
                 match dictGet f.type_registry uri with
                 | none => .error (.rxError ("unknown type " ++ uri))
                 | some (.alias d) =>
                     if keysSub entries ["type"] then make_schema fuel f d
                     else .error (.rxError "composed type does not take check arguments")
                 | some (.builtin t) =>
                     match t with
                     | .all =>
                         if !keysSub entries ["type", "of"] then
                           .error (.rxError "unknown parameter for //all")
                         else
                           (match dictGet entries "of" with
                            | none => .error (.rxError "no alternatives given in //all of")
                            | some ofv =>
                                if !truthy ofv then
                                  .error (.rxError "no alternatives given in //all of")
                                else
                                  match pyLen ofv with
                                  | .error e => .error e
                                  | .ok 0 => .error (.rxError "no alternatives given in //all of")
                                  | .ok (_ + 1) =>
                                      match pyIter ofv with
                                      | .error e => .error e
                                      | .ok items =>
                                          match items.mapM (make_schema fuel f) with
                                          | .error e => .error e
                                          | .ok alts => .ok (.all alts))
                     | .anyT =>
                         if !keysSub entries ["type", "of"] then
                           .error (.rxError "unknown parameter for //any")
                         else
                           (match dictGet entries "of" with
                            | none => .ok (.any none)
                            | some .null => .ok (.any none)
                            | some ofv =>
                                if !truthy ofv then
                                  .error (.rxError "no alternatives given in //any of")
                                else
                                  match pyIter ofv with
                                  | .error e => .error e
                                  | .ok items =>
                                      match items.mapM (make_schema fuel f) with
                                      | .error e => .error e
                                      | .ok alts => .ok (.any (some alts)))
                     | .arr =>
                         if !keysSub entries ["type", "contents", "length"] then
                           .error (.rxError "unknown parameter for //arr")
                         else
                           (match dictGet entries "contents" with
                            | none => .error (.rxError "no contents provided for //arr")
                            | some cv =>
                                if !truthy cv then
                                  .error (.rxError "no contents provided for //arr")
                                else
                                  match make_schema fuel f cv with
                                  | .error e => .error e
                                  | .ok cs =>
                                      match dictGet entries "length" with
                                      | none => .ok (.arr cs none)
                                      | some lv =>
                                          if !truthy lv then .ok (.arr cs none)
                                          else
                                            match make_range_check lv with
                                            | .error e => .error e
                                            | .ok r => .ok (.arr cs (some r)))
                     | .bool =>
                         if !keysSub entries ["type"] then
                           .error (.rxError "unknown parameter for //bool")
                         else .ok .bool
                     | .defT =>
                         if !keysSub entries ["type"] then
                           .error (.rxError "unknown parameter for //def")
                         else .ok .defT
                     | .fail =>
                         if !keysSub entries ["type"] then
                           .error (.rxError "unknown parameter for //fail")
                         else .ok .fail
                     | .int =>
                         if !keysSub entries ["type", "range", "value"] then
                           .error (.rxError "unknown parameter for //int")
                         else
                           (match ((match dictGet entries "value" with
                                   | none => Except.ok (none : Option ℚ)
                                   | some (.num q) =>
                                       if pyModOne q != 0 then
                                         .error (.rxError "invalid value parameter for //int")
                                       else .ok (some q)
                                   | some _ =>
                                       .error (.rxError "invalid value parameter for //int")) :
                                    Except PyErr (Option ℚ)) with
                            | .error e => .error e
                            | .ok val =>
                                match dictGet entries "range" with
                                | none => .ok (.int val none)
                                | some rv =>
                                    match make_range_check rv with
                                    | .error e => .error e
                                    | .ok r => .ok (.int val (some r)))
                     | .map =>
                         if !keysSub entries ["type", "values"] then
                           .error (.rxError "unknown parameter for //map")
                         else
                           (match dictGet entries "values" with
                            | none => .error (.rxError "no values given for //map")
                            | some vv =>
                                if !truthy vv then
                                  .error (.rxError "no values given for //map")
                                else
                                  match make_schema fuel f vv with
                                  | .error e => .error e
                                  | .ok vs => .ok (.map vs))
                     | .nil =>
                         if !keysSub entries ["type"] then
                           .error (.rxError "unknown parameter for //nil")
                         else .ok .nil
                     | .num =>
                         if !keysSub entries ["type", "range", "value"] then
                           .error (.rxError "unknown parameter for //num")
                         else
                           (match ((match dictGet entries "value" with
                                   | none => Except.ok (none : Option ℚ)
                                   | some (.num q) => .ok (some q)
                                   | some _ =>
                                       .error (.rxError "invalid value parameter for //num")) :
                                    Except PyErr (Option ℚ)) with
                            | .error e => .error e
                            | .ok val =>
                                match dictGet entries "range" with
                                | none => .ok (.num val none)
                                | some rv =>
                                    if !truthy rv then .ok (.num val none)
                                    else
                                      match make_range_check rv with
                                      | .error e => .error e
                                      | .ok r => .ok (.num val (some r)))
                     | .one =>
                         if !keysSub entries ["type"] then
                           .error (.rxError "unknown parameter for //one")
                         else .ok .one
                     | .recT =>
                         if !keysSub entries ["type", "rest", "required", "optional"] then
                           .error (.rxError "unknown parameter for //rec")
                         else
                           (match ((match dictGet entries "rest" with
                                   | none => Except.ok (none : Option Schema)
                                   | some rv =>
                                       if !truthy rv then .ok none
                                       else
                                         match make_schema fuel f rv with
                                         | .error e => .error e
                                         | .ok rs => .ok (some rs)) :
                                    Except PyErr (Option Schema)) with
                            | .error e => .error e
                            | .ok rest =>
                                match (match dictGet entries "required" with
                                       | none => Value.dict []
                                       | some v => v) with
                                | .dict reqE =>
                                    (match reqE.foldlM
                                        (fun (acc : List (String × Schema) × List String) p =>
                                          if acc.2.contains p.1 then
                                            Except.error (PyErr.rxError
                                              (p.1 ++ " appears in both required and optional"))
                                          else
                                            match make_schema fuel f p.2 with
                                            | .error e => .error e
                                            | .ok s => .ok (acc.1 ++ [(p.1, s)], acc.2 ++ [p.1]))
                                        ([], []) with
                                     | .error e => .error e
                                     | .ok (reqC, known1) =>
                                         match (match dictGet entries "optional" with
                                                | none => Value.dict []
                                                | some v => v) with
                                         | .dict optE =>
                                             (match optE.foldlM
                                                 (fun (acc : List (String × Schema) × List String) p =>
                                                   if acc.2.contains p.1 then
                                                     Except.error (PyErr.rxError
                                                       (p.1 ++ " appears in both required and optional"))
                                                   else
                                                     match make_schema fuel f p.2 with
                                                     | .error e => .error e
                                                     | .ok s =>
                                                         .ok (acc.1 ++ [(p.1, s)], acc.2 ++ [p.1]))
                                                 ([], known1) with
                                              | .error e => .error e
                                              | .ok (optC, known2) =>
                                                  .ok (.recT reqC optC rest known2))
                                         | _ => .error .attributeError)
                                | _ => .error .attributeError)
                     | .seq =>
                         if !keysSub entries ["type", "contents", "tail"] then
                           .error (.rxError "unknown parameter for //seq")
                         else
                           (match dictGet entries "contents" with
                            | none => .error (.rxError "no contents provided for //seq")
                            | some cv =>
                                if !truthy cv then
                                  .error (.rxError "no contents provided for //seq")
                                else
                                  match pyIter cv with
                                  | .error e => .error e
                                  | .ok items =>
                                      match items.mapM (make_schema fuel f) with
                                      | .error e => .error e
                                      | .ok cs =>
                                          match dictGet entries "tail" with
                                          | none => .ok (.seq cs none)
                                          | some tlv =>
                                              if !truthy tlv then .ok (.seq cs none)
                                              else
                                                match make_schema fuel f tlv with
                                                | .error e => .error e
                                                | .ok ts => .ok (.seq cs (some ts)))
                     | .str =>
                         if !keysSub entries ["type", "value", "length"] then
                           .error (.rxError "unknown parameter for //str")
                         else
                           (match ((match dictGet entries "value" with
                                   | none => Except.ok (none : Option String)
                                   | some (.str s) => .ok (some s)
                                   | some _ =>
                                       .error (.rxError "invalid value parameter for //str")) :
                                    Except PyErr (Option String)) with
                            | .error e => .error e
                            | .ok val =>
                                match dictGet entries "length" with
                                | none => .ok (.str val none)
                                | some lv =>
                                    match make_range_check lv with
                                    | .error e => .error e
                                    | .ok r => .ok (.str val (some r))))
    | _ => .error (.rxError "invalid schema argument to make_schema")

/-- `Factory.learn_type(uri, schema)`, with the factory state threaded
explicitly: raise when the URI already has an entry; compile the
definition as a validity check (its tree is discarded); only then store
the alias.  The returned factory is the state after the call, also when it
raises. -/
def learn_type (fuel : Nat) (f : Factory) (uri : String) (schemaV : Value) :
    Except PyErr Unit × Factory :=
  if (dictGet f.type_registry uri).isSome then
    (.error (.rxError ("tried to learn type for already-registered uri " ++ uri)), f)
  else
    match make_schema fuel f schemaV with
    | .error e => (.error e, f)
    | .ok _ =>
        (.ok (), { f with type_registry := dictSet f.type_registry uri (.alias schemaV) })

/-- Is a stored range bound a value that Python 3 can order against a
number — a number, a bool, or the skipped cases absent/None? -/
def boundOk : Option Value → Bool
  | none => true
  | some .null => true
  | some (.num _) => true
  | some (.bool _) => true
  | some _ => false

/-- The effective numeric bound a stored range bound imposes: a number
itself, a bool as 0/1, nothing for absent/None. -/
def boundNum : Option Value → Option ℚ
  | some (.num c) => some c
  | some (.bool b) => some (if b then 1 else 0)
  | _ => none

/-- All four bounds of a captured range are orderable against numbers. -/
def rangeOkB (r : RangeDict) : Bool :=
  ((boundOk r.min && boundOk r.minEx) && boundOk r.maxEx) && boundOk r.max

/-- `rangeOkB` lifted to an optional range parameter. -/
def rangeOkOpt : Option RangeDict → Bool
  | none => true
  | some r => rangeOkB r

mutual

/-- Every range bound stored anywhere in the compiled tree is orderable
against numbers (the condition under which `check` cannot raise). -/
def rangesOk : Schema → Bool
  | .all alts => rangesOkList alts
  | .any none => true
  | .any (some alts) => rangesOkList alts
  | .arr c l => rangesOk c && rangeOkOpt l
  | .bool => true
  | .defT => true
  | .fail => true
  | .int _ r => rangeOkOpt r
  | .map vs => rangesOk vs
  | .nil => true
  | .num _ r => rangeOkOpt r
  | .one => true
  | .recT req opt rest _ =>
      (rangesOkFields req && rangesOkFields opt) && rangesOkMaybe rest
  | .seq cs t => rangesOkList cs && rangesOkMaybe t
  | .str _ l => rangeOkOpt l
termination_by s => (sizeOf s, 0)

/-- `rangesOk` over a list of alternatives. -/
def rangesOkList : List Schema → Bool
  | [] => true
  | s :: ss => rangesOk s && rangesOkList ss
termination_by ss => (sizeOf ss, 0)

/-- `rangesOk` over a field map. -/
def rangesOkFields : List (String × Schema) → Bool
  | [] => true
  | (_, s) :: rest => rangesOk s && rangesOkFields rest
termination_by ps => (sizeOf ps, 0)

/-- `rangesOk` over an optional sub-schema. -/
def rangesOkMaybe : Option Schema → Bool
  | none => true
  | some s => rangesOk s
termination_by o => (sizeOf o, 0)

end

theorem cr_max_spec (r : RangeDict) (h : boundOk r.max = true) (q : ℚ) :
    ∃ b, check_range.check_range_max r q = .ok b ∧
      (b = false ↔ ∃ c, boundNum r.max = some c ∧ c < q) := by
  rcases r with ⟨mn, mne, mxe, mx⟩
  rcases mx with _ | bv
  · exact ⟨true, by simp [check_range.check_range_max], by simp [boundNum]⟩
  · rcases bv with _ | b | c | s | xs | m
    · exact ⟨true, by simp [check_range.check_range_max, Value.isNull], by simp [boundNum]⟩
    · by_cases hb : (if b then (1 : ℚ) else 0) < q
      · exact ⟨false,
          by simp [check_range.check_range_max, Value.isNull, pyGt, hb],
          by simp [boundNum, hb]⟩
      · exact ⟨true,
          by simp [check_range.check_range_max, Value.isNull, pyGt, hb],
          by simp [boundNum, hb]⟩
    · by_cases hc : c < q
      · exact ⟨false,
          by simp [check_range.check_range_max, Value.isNull, pyGt, hc],
          by simp [boundNum, hc]⟩
      · exact ⟨true,
          by simp [check_range.check_range_max, Value.isNull, pyGt, hc],
          by simp [boundNum, hc]⟩
    · simp [boundOk] at h
    · simp [boundOk] at h
    · simp [boundOk] at h

theorem cr_maxEx_spec (r : RangeDict) (h1 : boundOk r.maxEx = true)
    (h2 : boundOk r.max = true) (q : ℚ) :
    ∃ b, check_range.check_range_maxEx r q = .ok b ∧
      (b = false ↔ ((∃ c, boundNum r.maxEx = some c ∧ c ≤ q) ∨
                    (∃ c, boundNum r.max = some c ∧ c < q))) := by
  obtain ⟨b2, hb2, hiff2⟩ := cr_max_spec r h2 q
  rcases r with ⟨mn, mne, mxe, mx⟩
  rcases mxe with _ | bv
  · refine ⟨b2, by simpa [check_range.check_range_maxEx] using hb2, ?_⟩
    simpa [boundNum] using hiff2
  · rcases bv with _ | b | c | s | xs | m
    · refine ⟨b2, by simpa [check_range.check_range_maxEx, Value.isNull] using hb2, ?_⟩
      simpa [boundNum] using hiff2
    · by_cases hb : (if b then (1 : ℚ) else 0) ≤ q
      · exact ⟨false,
          by simp [check_range.check_range_maxEx, Value.isNull, pyGe, hb],
          by simp [boundNum, hb]⟩
      · refine ⟨b2,
          by simpa [check_range.check_range_maxEx, Value.isNull, pyGe, hb] using hb2, ?_⟩
        rw [hiff2]
        simp [boundNum, hb]
    · by_cases hc : c ≤ q
      · exact ⟨false,
          by simp [check_range.check_range_maxEx, Value.isNull, pyGe, hc],
          by simp [boundNum, hc]⟩
      · refine ⟨b2,
          by simpa [check_range.check_range_maxEx, Value.isNull, pyGe, hc] using hb2, ?_⟩
        rw [hiff2]
        simp [boundNum, hc]
    · simp [boundOk] at h1
    · simp [boundOk] at h1
    · simp [boundOk] at h1

theorem cr_minEx_spec (r : RangeDict) (h1 : boundOk r.minEx = true)
    (h2 : boundOk r.maxEx = true) (h3 : boundOk r.max = true) (q : ℚ) :
    ∃ b, check_range.check_range_minEx r q = .ok b ∧
      (b = false ↔ ((∃ c, boundNum r.minEx = some c ∧ q ≤ c) ∨
                    (∃ c, boundNum r.maxEx = some c ∧ c ≤ q) ∨
                    (∃ c, boundNum r.max = some c ∧ c < q))) := by
  obtain ⟨b2, hb2, hiff2⟩ := cr_maxEx_spec r h2 h3 q
  rcases r with ⟨mn, mne, mxe, mx⟩
  rcases mne with _ | bv
  · refine ⟨b2, by simpa [check_range.check_range_minEx] using hb2, ?_⟩
    rw [hiff2]
    simp [boundNum, or_assoc]
  · rcases bv with _ | b | c | s | xs | m
    · refine ⟨b2, by simpa [check_range.check_range_minEx, Value.isNull] using hb2, ?_⟩
      rw [hiff2]
      simp [boundNum, or_assoc]
    · by_cases hb : q ≤ (if b then (1 : ℚ) else 0)
      · exact ⟨false,
          by simp [check_range.check_range_minEx, Value.isNull, pyLe, hb],
          by simp [boundNum, hb]⟩
      · refine ⟨b2,
          by simpa [check_range.check_range_minEx, Value.isNull, pyLe, hb] using hb2, ?_⟩
        rw [hiff2]
        simp [boundNum, hb, or_assoc]
    · by_cases hc : q ≤ c
      · exact ⟨false,
          by simp [check_range.check_range_minEx, Value.isNull, pyLe, hc],
          by simp [boundNum, hc]⟩
      · refine ⟨b2,
          by simpa [check_range.check_range_minEx, Value.isNull, pyLe, hc] using hb2, ?_⟩
        rw [hiff2]
        simp [boundNum, hc, or_assoc]
    · simp [boundOk] at h1
    · simp [boundOk] at h1
    · simp [boundOk] at h1

theorem check_range_spec (r : RangeDict) (h : rangeOkB r = true) (q : ℚ) :
    ∃ b, check_range r q = .ok b ∧
      (b = false ↔ ((∃ c, boundNum r.min = some c ∧ q < c) ∨
                    (∃ c, boundNum r.minEx = some c ∧ q ≤ c) ∨
                    (∃ c, boundNum r.maxEx = some c ∧ c ≤ q) ∨
                    (∃ c, boundNum r.max = some c ∧ c < q))) := by
  have h1 : boundOk r.min = true := by
    simp [rangeOkB, Bool.and_eq_true] at h; exact h.1.1.1
  have h2 : boundOk r.minEx = true := by
    simp [rangeOkB, Bool.and_eq_true] at h; exact h.1.1.2
  have h3 : boundOk r.maxEx = true := by
    simp [rangeOkB, Bool.and_eq_true] at h; exact h.1.2
  have h4 : boundOk r.max = true := by
    simp [rangeOkB, Bool.and_eq_true] at h; exact h.2
  obtain ⟨b2, hb2, hiff2⟩ := cr_minEx_spec r h2 h3 h4 q
  rcases r with ⟨mn, mne, mxe, mx⟩
  rcases mn with _ | bv
  · refine ⟨b2, by simpa [check_range] using hb2, ?_⟩
    rw [hiff2]
    simp [boundNum, or_assoc]
  · rcases bv with _ | b | c | s | xs | m
    · refine ⟨b2, by simpa [check_range, Value.isNull] using hb2, ?_⟩
      rw [hiff2]
      simp [boundNum, or_assoc]
    · by_cases hb : q < (if b then (1 : ℚ) else 0)
      · exact ⟨false,
          by simp [check_range, Value.isNull, pyLt, hb],
          by simp [boundNum, hb]⟩
      · refine ⟨b2, by simpa [check_range, Value.isNull, pyLt, hb] using hb2, ?_⟩
        rw [hiff2]
        simp [boundNum, hb, or_assoc]
    · by_cases hc : q < c
      · exact ⟨false,
          by simp [check_range, Value.isNull, pyLt, hc],
          by simp [boundNum, hc]⟩
      · refine ⟨b2, by simpa [check_range, Value.isNull, pyLt, hc] using hb2, ?_⟩
        rw [hiff2]
        simp [boundNum, hc, or_assoc]
    · simp [boundOk] at h1
    · simp [boundOk] at h1
    · simp [boundOk] at h1

theorem check_range_total (r : RangeDict) (h : rangeOkB r = true) (q : ℚ) :
    ∃ b, check_range r q = .ok b := by
  obtain ⟨b, hb, _⟩ := check_range_spec r h q
  exact ⟨b, hb⟩

/-- Under orderable bounds, `strLenCheck` never raises. -/
theorem strLenCheck_total (len : Option RangeDict) (s : String)
    (h : rangeOkOpt len = true) : ∃ b, strLenCheck len s = .ok b := by
  cases len with
  | none => exact ⟨true, by simp [strLenCheck]⟩
  | some r =>
      obtain ⟨lb, hlb⟩ := check_range_total r (by simpa [rangeOkOpt] using h) ((s.length : ℚ))
      exact ⟨lb, by simp [strLenCheck, hlb]⟩

/-- Under orderable bounds, the numeric part of `IntType.check` never
raises. -/
theorem intCheckNum_total (val : Option ℚ) (rng : Option RangeDict) (q : ℚ)
    (h : rangeOkOpt rng = true) : ∃ b, intCheckNum val rng q = .ok b := by
  by_cases hm : (pyModOne q != 0) = true
  · exact ⟨false, by simp [intCheckNum, hm]⟩
  · cases rng with
    | none => exact ⟨litOk val q, by simp [intCheckNum, hm]⟩
    | some r =>
        obtain ⟨rb, hrb⟩ := check_range_total r (by simpa [rangeOkOpt] using h) q
        cases rb with
        | false => exact ⟨false, by simp [intCheckNum, hm, hrb]⟩
        | true => exact ⟨litOk val q, by simp [intCheckNum, hm, hrb]⟩

/-- Under orderable bounds, the numeric part of `NumType.check` never
raises. -/
theorem numCheckNum_total (val : Option ℚ) (rng : Option RangeDict) (q : ℚ)
    (h : rangeOkOpt rng = true) : ∃ b, numCheckNum val rng q = .ok b := by
  cases rng with
  | none => exact ⟨litOk val q, by simp [numCheckNum]⟩
  | some r =>
      obtain ⟨rb, hrb⟩ := check_range_total r (by simpa [rangeOkOpt] using h) q
      cases rb with
      | false => exact ⟨false, by simp [numCheckNum, hrb]⟩
      | true => exact ⟨litOk val q, by simp [numCheckNum, hrb]⟩

/-- Under orderable bounds, the text part of `StrType.check` never
raises. -/
theorem strCheckStr_total (val : Option String) (len : Option RangeDict) (s : String)
    (h : rangeOkOpt len = true) : ∃ b, strCheckStr val len s = .ok b := by
  obtain ⟨lb, hlb⟩ := strLenCheck_total len s h
  cases val with
  | none => exact ⟨lb, by simp [strCheckStr, hlb]⟩
  | some c =>
      by_cases hev : s ≠ c
      · exact ⟨false, by simp [strCheckStr, hev]⟩
      · exact ⟨lb, by simp [strCheckStr, hev, hlb]⟩

mutual

/-- Under `rangesOk`, `check` never raises: every outcome is a boolean. -/
theorem check_total : ∀ (s : Schema) (v : Value), rangesOk s = true →
    ∃ b, check s v = .ok b
  | .all alts, v, h => by
      simp only [check]
      exact checkAll_total alts v (by simpa [rangesOk] using h)
  | .any none, v, _ => ⟨true, by simp [check]⟩
  | .any (some alts), v, h => by
      simp only [check]
      exact checkAny_total alts v (by simpa [rangesOk] using h)
  | .arr c l, v, h => by
      have hc : rangesOk c = true := by
        simp [rangesOk, Bool.and_eq_true] at h; exact h.1
      have hl : rangeOkOpt l = true := by
        simp [rangesOk, Bool.and_eq_true] at h; exact h.2
      cases v with
      | arr xs =>
          cases l with
          | none =>
              simp only [check]
              exact checkElems_total c xs hc
          | some r =>
              obtain ⟨lb, hlb⟩ :=
                check_range_total r (by simpa [rangeOkOpt] using hl) ((xs.length : ℚ))
              cases lb with
              | false => exact ⟨false, by simp [check, hlb]⟩
              | true =>
                  have hrec := checkElems_total c xs hc
                  simpa [check, hlb] using hrec
      | null => exact ⟨false, by simp [check]⟩
      | bool b => exact ⟨false, by simp [check]⟩
      | num q => exact ⟨false, by simp [check]⟩
      | str s => exact ⟨false, by simp [check]⟩
      | dict m => exact ⟨false, by simp [check]⟩
  | .bool, v, _ => by cases v <;> simp [check]
  | .defT, v, _ => by simp [check]
  | .fail, v, _ => ⟨false, by simp [check]⟩
  | .int val rng, v, h => by
      cases v with
      | num q =>
          simp only [check]
          exact intCheckNum_total val rng q (by simpa [rangesOk] using h)
      | null => exact ⟨false, by simp [check]⟩
      | bool b => exact ⟨false, by simp [check]⟩
      | str s => exact ⟨false, by simp [check]⟩
      | arr xs => exact ⟨false, by simp [check]⟩
      | dict m => exact ⟨false, by simp [check]⟩
  | .map vs, v, h => by
      cases v with
      | dict entries =>
          simp only [check]
          exact checkElems_total vs (entries.map Prod.snd) (by simpa [rangesOk] using h)
      | null => exact ⟨false, by simp [check]⟩
      | bool b => exact ⟨false, by simp [check]⟩
      | num q => exact ⟨false, by simp [check]⟩
      | str s => exact ⟨false, by simp [check]⟩
      | arr xs => exact ⟨false, by simp [check]⟩
  | .nil, v, _ => by simp [check]
  | .num val rng, v, h => by
      cases v with
      | num q =>
          simp only [check]
          exact numCheckNum_total val rng q (by simpa [rangesOk] using h)
      | null => exact ⟨false, by simp [check]⟩
      | bool b => exact ⟨false, by simp [check]⟩
      | str s => exact ⟨false, by simp [check]⟩
      | arr xs => exact ⟨false, by simp [check]⟩
      | dict m => exact ⟨false, by simp [check]⟩
  | .one, v, _ => by cases v <;> simp [check]
  | .recT req opt rest known, v, h => by
      have hreq : rangesOkFields req = true := by
        simp [rangesOk, Bool.and_eq_true] at h; exact h.1.1
      have hopt : rangesOkFields opt = true := by
        simp [rangesOk, Bool.and_eq_true] at h; exact h.1.2
      have hrest : rangesOkMaybe rest = true := by
        simp [rangesOk, Bool.and_eq_true] at h; exact h.2
      cases v with
      | dict entries =>
          cases hnr : recNoRest known rest entries with
          | true => exact ⟨false, by simp [check, hnr]⟩
          | false =>
              have hk : 0 < sizeOf known := by cases known <;> simp_arith
              have hrec := checkRecFields_total req opt rest known entries hreq hopt hrest
              simpa [check, hnr] using hrec
      | null => exact ⟨false, by simp [check]⟩
      | bool b => exact ⟨false, by simp [check]⟩
      | num q => exact ⟨false, by simp [check]⟩
      | str s => exact ⟨false, by simp [check]⟩
      | arr xs => exact ⟨false, by simp [check]⟩
  | .seq contents tail, v, h => by
      have hcs : rangesOkList contents = true := by
        simp [rangesOk, Bool.and_eq_true] at h; exact h.1
      have ht : rangesOkMaybe tail = true := by
        simp [rangesOk, Bool.and_eq_true] at h; exact h.2
      cases v with
      | arr xs =>
          cases hl : lenLt xs.length contents.length with
          | true => exact ⟨false, by cases tail <;> simp [check, hl]⟩
          | false =>
              obtain ⟨b1, hb1⟩ := checkZip_total contents xs hcs
              cases b1 with
              | false => exact ⟨false, by cases tail <;> simp [check, hl, hb1]⟩
              | true =>
                  cases hg : lenLt contents.length xs.length with
                  | false => exact ⟨true, by cases tail <;> simp [check, hl, hb1, hg]⟩
                  | true =>
                      cases tail with
                      | none => exact ⟨false, by simp [check, hl, hb1, hg]⟩
                      | some t =>
                          obtain ⟨tb, htb⟩ := check_total t (.arr (xs.drop contents.length))
                            (by simpa [rangesOkMaybe] using ht)
                          cases tb with
                          | false => exact ⟨false, by simp [check, hl, hb1, hg, htb]⟩
                          | true => exact ⟨true, by simp [check, hl, hb1, hg, htb]⟩
      | null => exact ⟨false, by simp [check]⟩
      | bool b => exact ⟨false, by simp [check]⟩
      | num q => exact ⟨false, by simp [check]⟩
      | str s => exact ⟨false, by simp [check]⟩
      | dict m => exact ⟨false, by simp [check]⟩
  | .str val len, v, h => by
      cases v with
      | str s =>
          simp only [check]
          exact strCheckStr_total val len s (by simpa [rangesOk] using h)
      | null => exact ⟨false, by simp [check]⟩
      | bool b => exact ⟨false, by simp [check]⟩
      | num q => exact ⟨false, by simp [check]⟩
      | arr xs => exact ⟨false, by simp [check]⟩
      | dict m => exact ⟨false, by simp [check]⟩
termination_by s v h => (sizeOf s, 0)

/-- Under `rangesOk`, the //all loop never raises. -/
theorem checkAll_total : ∀ (ss : List Schema) (v : Value), rangesOkList ss = true →
    ∃ b, checkAll ss v = .ok b
  | [], v, _ => ⟨true, by simp [checkAll]⟩
  | s :: ss, v, h => by
      have hs : rangesOk s = true := by
        simp [rangesOkList, Bool.and_eq_true] at h; exact h.1
      have hss : rangesOkList ss = true := by
        simp [rangesOkList, Bool.and_eq_true] at h; exact h.2
      obtain ⟨b, hb⟩ := check_total s v hs
      cases b with
      | false => exact ⟨false, by simp [checkAll, hb]⟩
      | true =>
          obtain ⟨b2, hb2⟩ := checkAll_total ss v hss
          exact ⟨b2, by simp [checkAll, hb, hb2]⟩
termination_by ss v h => (sizeOf ss, 0)

/-- Under `rangesOk`, the //any loop never raises. -/
theorem checkAny_total : ∀ (ss : List Schema) (v : Value), rangesOkList ss = true →
    ∃ b, checkAny ss v = .ok b
  | [], v, _ => ⟨false, by simp [checkAny]⟩
  | s :: ss, v, h => by
      have hs : rangesOk s = true := by
        simp [rangesOkList, Bool.and_eq_true] at h; exact h.1
      have hss : rangesOkList ss = true := by
        simp [rangesOkList, Bool.and_eq_true] at h; exact h.2
      obtain ⟨b, hb⟩ := check_total s v hs
      cases b with
      | true => exact ⟨true, by simp [checkAny, hb]⟩
      | false =>
          obtain ⟨b2, hb2⟩ := checkAny_total ss v hss
          exact ⟨b2, by simp [checkAny, hb, hb2]⟩
termination_by ss v h => (sizeOf ss, 0)

/-- Under `rangesOk`, the //arr and //map element loop never raises. -/
theorem checkElems_total : ∀ (c : Schema) (xs : List Value), rangesOk c = true →
    ∃ b, checkElems c xs = .ok b
  | c, [], _ => ⟨true, by simp [checkElems]⟩
  | c, x :: xs, h => by
      obtain ⟨b, hb⟩ := check_total c x h
      cases b with
      | false => exact ⟨false, by simp [checkElems, hb]⟩
      | true =>
          obtain ⟨b2, hb2⟩ := checkElems_total c xs h
          exact ⟨b2, by simp [checkElems, hb, hb2]⟩
termination_by c xs h => (sizeOf c, xs.length + 1)

/-- Under `rangesOk`, the //seq positional loop never raises. -/
theorem checkZip_total : ∀ (ss : List Schema) (xs : List Value), rangesOkList ss = true →
    ∃ b, checkZip ss xs = .ok b
  | [], xs, _ => ⟨true, by simp [checkZip]⟩
  | s :: ss, [], _ => ⟨true, by simp [checkZip]⟩
  | s :: ss, x :: xs, h => by
      have hs : rangesOk s = true := by
        simp [rangesOkList, Bool.and_eq_true] at h; exact h.1
      have hss : rangesOkList ss = true := by
        simp [rangesOkList, Bool.and_eq_true] at h; exact h.2
      obtain ⟨b, hb⟩ := check_total s x hs
      cases b with
      | false => exact ⟨false, by simp [checkZip, hb]⟩
      | true =>
          obtain ⟨b2, hb2⟩ := checkZip_total ss xs hss
          exact ⟨b2, by simp [checkZip, hb, hb2]⟩
termination_by ss xs h => (sizeOf ss, 0)

/-- Under `rangesOk`, the //rec required loop never raises. -/
theorem checkReq_total : ∀ (rs : List (String × Schema)) (entries : List (String × Value)),
    rangesOkFields rs = true → ∃ b, checkReq rs entries = .ok b
  | [], entries, _ => ⟨true, by simp [checkReq]⟩
  | (fld, s) :: rest, entries, h => by
      have hs : rangesOk s = true := by
        simp [rangesOkFields, Bool.and_eq_true] at h; exact h.1
      have hr : rangesOkFields rest = true := by
        simp [rangesOkFields, Bool.and_eq_true] at h; exact h.2
      cases hw : dictGet entries fld with
      | none => exact ⟨false, by simp [checkReq, hw]⟩
      | some w =>
          obtain ⟨b, hb⟩ := check_total s w hs
          cases b with
          | false => exact ⟨false, by simp [checkReq, hw, hb]⟩
          | true =>
              obtain ⟨b2, hb2⟩ := checkReq_total rest entries hr
              exact ⟨b2, by simp [checkReq, hw, hb, hb2]⟩
termination_by rs entries h => (sizeOf rs, 0)

/-- Under `rangesOk`, the //rec optional loop never raises. -/
theorem checkOpt_total : ∀ (rs : List (String × Schema)) (entries : List (String × Value)),
    rangesOkFields rs = true → ∃ b, checkOpt rs entries = .ok b
  | [], entries, _ => ⟨true, by simp [checkOpt]⟩
  | (fld, s) :: rest, entries, h => by
      have hs : rangesOk s = true := by
        simp [rangesOkFields, Bool.and_eq_true] at h; exact h.1
      have hr : rangesOkFields rest = true := by
        simp [rangesOkFields, Bool.and_eq_true] at h; exact h.2
      cases hw : dictGet entries fld with
      | none =>
          obtain ⟨b2, hb2⟩ := checkOpt_total rest entries hr
          exact ⟨b2, by simp [checkOpt, hw, hb2]⟩
      | some w =>
          obtain ⟨b, hb⟩ := check_total s w hs
          cases b with
          | false => exact ⟨false, by simp [checkOpt, hw, hb]⟩
          | true =>
              obtain ⟨b2, hb2⟩ := checkOpt_total rest entries hr
              exact ⟨b2, by simp [checkOpt, hw, hb, hb2]⟩
termination_by rs entries h => (sizeOf rs, 0)

/-- Under `rangesOk`, the //rec field stage never raises. -/
theorem checkRecFields_total (req opt : List (String × Schema)) (rest : Option Schema)
    (known : List String) (entries : List (String × Value))
    (hreq : rangesOkFields req = true) (hopt : rangesOkFields opt = true)
    (hrest : rangesOkMaybe rest = true) :
    ∃ b, checkRecFields req opt rest known entries = .ok b := by
  have hq : 0 < sizeOf req := by cases req <;> simp_arith
  obtain ⟨b1, hb1⟩ := checkReq_total req entries hreq
  cases b1 with
  | false => exact ⟨false, by simp [checkRecFields, hb1]⟩
  | true =>
      have h2 := checkRecOpt_total opt rest known entries hopt hrest
      simpa [checkRecFields, hb1] using h2
termination_by (sizeOf req + sizeOf opt + sizeOf rest + 1, 0)

/-- Under `rangesOk`, the //rec optional stage never raises. -/
theorem checkRecOpt_total (opt : List (String × Schema)) (rest : Option Schema)
    (known : List String) (entries : List (String × Value))
    (hopt : rangesOkFields opt = true) (hrest : rangesOkMaybe rest = true) :
    ∃ b, checkRecOpt opt rest known entries = .ok b := by
  have ho : 0 < sizeOf opt := by cases opt <;> simp_arith
  obtain ⟨b2, hb2⟩ := checkOpt_total opt entries hopt
  cases b2 with
  | false => exact ⟨false, by simp [checkRecOpt, hb2]⟩
  | true =>
      have h3 := checkRecRest_total rest known entries hrest
      simpa [checkRecOpt, hb2] using h3
termination_by (sizeOf opt + sizeOf rest + 1, 0)

/-- Under `rangesOk`, the //rec rest stage never raises. -/
theorem checkRecRest_total (rest : Option Schema) (known : List String)
    (entries : List (String × Value)) (hrest : rangesOkMaybe rest = true) :
    ∃ b, checkRecRest rest known entries = .ok b := by
  cases hu : recUnknown known entries with
  | nil => exact ⟨true, by simp [checkRecRest, hu]⟩
  | cons p ps =>
      cases rest with
      | none => exact ⟨false, by simp [checkRecRest, hu]⟩
      | some rs =>
          obtain ⟨b3, hb3⟩ := check_total rs (.dict (p :: ps))
            (by simpa [rangesOkMaybe] using hrest)
          cases b3 with
          | false => exact ⟨false, by simp [checkRecRest, hu, hb3]⟩
          | true => exact ⟨true, by simp [checkRecRest, hu, hb3]⟩
termination_by (sizeOf rest + 1, 0)

end

/-- Claim C3: a range predicate built from the keys min, max, min-ex,
max-ex (with numeric bound values) rejects a candidate number n exactly
when n < min (when set), n ≤ min-ex (when set), n ≥ max-ex (when set), or
n > max (when set); absent bounds impose no constraint. -/
theorem claim_C3_range_semantics (mn mnex mxex mx : Option ℚ) (n : ℚ) :
    ∃ b, check_range
        ⟨mn.map Value.num, mnex.map Value.num, mxex.map Value.num, mx.map Value.num⟩ n
        = .ok b ∧
      (b = false ↔ ((∃ a, mn = some a ∧ n < a) ∨ (∃ a, mnex = some a ∧ n ≤ a) ∨
                    (∃ a, mxex = some a ∧ n ≥ a) ∨ (∃ a, mx = some a ∧ n > a))) := by
  have hok : rangeOkB
      ⟨mn.map Value.num, mnex.map Value.num, mxex.map Value.num, mx.map Value.num⟩ = true := by
    cases mn <;> cases mnex <;> cases mxex <;> cases mx <;> simp [rangeOkB, boundOk]
  obtain ⟨b, hb, hiff⟩ := check_range_spec _ hok n
  refine ⟨b, hb, ?_⟩
  rw [hiff]
  cases mn <;> cases mnex <;> cases mxex <;> cases mx <;>
    simp [boundNum, ge_iff_le, gt_iff_lt]

/-- Claim C1 counterexample: the definition with a string range bound,
`\x7b"type": "//num", "range": \x7b"min": "a"\x7d\x7d`, compiles, but
checking the number 0 against the resulting tree raises a TypeError
instead of returning a boolean. -/
theorem claim_C1_counterexample :
    make_schema 3 coreFactory
        (.dict [("type", .str "//num"), ("range", .dict [("min", .str "a")])])
      = .ok (.num none (some ⟨some (.str "a"), none, none, none⟩)) ∧
    check (.num none (some ⟨some (.str "a"), none, none, none⟩)) (.num 0)
      = .error .typeError := by
  constructor
  · rfl
  · simp [check, numCheckNum, check_range, pyLt, Value.isNull]

/-- Claim C1 amended: for every validator tree all of whose stored range
bounds are numbers, booleans, or None, and for every JSON-like input
value, `check` returns a boolean and never raises. -/
theorem claim_C1_check_never_raises (s : Schema) (h : rangesOk s = true) (v : Value) :
    ∃ b, check s v = .ok b :=
  check_total s v h

/-- Witness for the amended claim C1 at a concrete schema and value. -/
theorem claim_C1_check_never_raises_witness :
    rangesOk (.int (some 5) none) = true ∧
    ∃ b, check (.int (some 5) none) (.num 5) = .ok b :=
  ⟨by simp [rangesOk, rangeOkOpt],
   claim_C1_check_never_raises (.int (some 5) none)
     (by simp [rangesOk, rangeOkOpt]) (.num 5)⟩

/-- Claim C10: a string value is rejected outright by every //arr and
every //seq validator — strings are never treated as sequences even
though they are indexable. -/
theorem claim_C10_str_not_sequence (s : String) (c : Schema) (l : Option RangeDict)
    (cs : List Schema) (t : Option Schema) :
    check (.arr c l) (.str s) = .ok false ∧ check (.seq cs t) (.str s) = .ok false := by
  constructor
  · simp [check]
  · cases t <;> simp [check]

/-- Claim C2 counterexample: a mapping without a "type" key fails with a
KeyError, which is not the RxError compile-error kind the claim names. -/
theorem claim_C2_counterexample :
    make_schema 1 coreFactory (.dict [("x", .num 1)]) = .error .keyError ∧
    PyErr.isRx .keyError = false :=
  ⟨rfl, rfl⟩

/-- Claim C2 amended: a definition that is neither a bare string nor a
mapping with a "type" key always fails to compile and no tree is
returned; a non-mapping fails with the invalid-schema RxError, while a
mapping lacking "type" escapes with a KeyError rather than the
compile-error kind. -/
theorem claim_C2_make_schema_invalid (fuel : Nat) (f : Factory) (d : Value)
    (hs : ∀ s, d ≠ .str s)
    (hd : ∀ entries, d = .dict entries → dictGet entries "type" = none) :
    make_schema (fuel + 1) f d =
      .error (if d.isDict then .keyError
              else .rxError "invalid schema argument to make_schema") := by
  cases d with
  | str s => exact absurd rfl (hs s)
  | dict entries => simp [make_schema, hd entries rfl, Value.isDict]
  | null => simp [make_schema, Value.isDict]
  | bool b => simp [make_schema, Value.isDict]
  | num q => simp [make_schema, Value.isDict]
  | arr xs => simp [make_schema, Value.isDict]

/-- Witness for the amended claim C2 at the number 3. -/
theorem claim_C2_make_schema_invalid_witness :
    make_schema 1 baseFactory (.num 3)
      = .error (.rxError "invalid schema argument to make_schema") := by
  have h := claim_C2_make_schema_invalid 0 baseFactory (.num 3)
    (by intro s hval; cases hval) (by intro entries hval; cases hval)
  simpa [Value.isDict] using h

/-- Claim C7: compiling a definition whose type resolves to a learned
alias fails with the composed-type RxError when the definition has any
key besides "type"; with only the "type" key it returns exactly the tree
of the recursively compiled aliased definition, with no wrapping node. -/
theorem claim_C7_alias (fuel : Nat) (f : Factory) (entries : List (String × Value))
    (tv : Value) (uri : String) (d : Value)
    (ht : dictGet entries "type" = some tv)
    (hu : expand_uri f tv = .ok uri)
    (ha : dictGet f.type_registry uri = some (.alias d)) :
    (keysSub entries ["type"] = false →
      make_schema (fuel + 1) f (.dict entries) =
        .error (.rxError "composed type does not take check arguments")) ∧
    (keysSub entries ["type"] = true →
      make_schema (fuel + 1) f (.dict entries) = make_schema fuel f d) := by
  constructor <;> intro hk <;> simp [make_schema, ht, hu, ha, hk]

/-- Witness for claim C7: learning `tag:x:/y` as an alias for `//str` and
then compiling it with an extra "value" parameter fails. -/
theorem claim_C7_alias_witness :
    (learn_type 3 coreFactory "tag:x:/y" (.str "//str")).1 = .ok () ∧
    make_schema 3 (learn_type 3 coreFactory "tag:x:/y" (.str "//str")).2
        (.dict [("type", .str "tag:x:/y"), ("value", .str "z")]) =
      .error (.rxError "composed type does not take check arguments") :=
  ⟨rfl,
   (claim_C7_alias 2 (learn_type 3 coreFactory "tag:x:/y" (.str "//str")).2
      [("type", .str "tag:x:/y"), ("value", .str "z")]
      (.str "tag:x:/y") "tag:x:/y" (.str "//str") rfl rfl rfl).1 rfl⟩

/-- Claim C8 counterexample: after registering the prefix "p" with the
empty base string, registering "p" again succeeds (the base is
overwritten) instead of failing — already-registered names are only
protected when their base is truthy. -/
theorem claim_C8_counterexample :
    add_prefix baseFactory "p" "" =
      .ok ⟨[("", "tag:codesimply.com,2008:rx/core/"),
            (".meta", "tag:codesimply.com,2008:rx/meta/"), ("p", "")], []⟩ ∧
    add_prefix
        ⟨[("", "tag:codesimply.com,2008:rx/core/"),
          (".meta", "tag:codesimply.com,2008:rx/meta/"), ("p", "")], []⟩ "p" "base2" =
      .ok ⟨[("", "tag:codesimply.com,2008:rx/core/"),
            (".meta", "tag:codesimply.com,2008:rx/meta/"), ("p", "base2")], []⟩ :=
  ⟨rfl, rfl⟩

/-- Claim C8 amended: `add_prefix(name, base)` fails exactly when the
name is registered with a non-empty (truthy) base — which covers the two
builtin aliases and every name previously added with a non-empty base;
a name registered with the empty base is treated as absent and silently
overwritten, and an unregistered name is recorded. -/
theorem claim_C8_truthy_guard (f : Factory) (name base : String) :
    (∀ b, dictGet f.prefix_registry name = some b → b ≠ "" →
       add_prefix f name base =
         .error (.rxError ("the prefix " ++ name ++ " is already registered"))) ∧
    ((dictGet f.prefix_registry name = none ∨ dictGet f.prefix_registry name = some "") →
      ∃ f2, add_prefix f name base = .ok f2 ∧
        f2.prefix_registry = dictSet f.prefix_registry name base) := by
  constructor
  · intro b hb hne
    have hbe : b.isEmpty = false := by
      cases he : b.isEmpty with
      | false => rfl
      | true =>
          rw [String.isEmpty_iff] at he
          exact absurd he hne
    simp [ add_prefix, hb, hbe]
  · rintro (hn | hn) <;>
      exact ⟨⟨dictSet f.prefix_registry name base, f.type_registry⟩,
        by simp [ add_prefix, hn, String.isEmpty], rfl⟩

/-- Witness for the amended claim C8: re-adding the builtin empty-string
alias fails. -/
theorem claim_C8_truthy_guard_witness :
    add_prefix baseFactory "" "x" =
      .error (.rxError ("the prefix " ++ "" ++ " is already registered")) :=
  (claim_C8_truthy_guard baseFactory "" "x").1
    "tag:codesimply.com,2008:rx/core/" rfl (by decide)

/-- Claim C9: when `learn_type` fails — the URI is already registered or
the definition does not compile — the factory, in particular its type
registry, is left exactly as it was. -/
theorem claim_C9_learn_type_preserves (fuel : Nat) (f : Factory) (uri : String)
    (d : Value) (e : PyErr) (h : (learn_type fuel f uri d).1 = .error e) :
    (learn_type fuel f uri d).2 = f := by
  by_cases hreg : (dictGet f.type_registry uri).isSome = true
  · simp [learn_type, hreg]
  · simp only [learn_type, hreg] at h ⊢
    cases hms : make_schema fuel f d with
    | error e2 => simp [hms, Bool.false_eq_true, if_neg]
    | ok t =>
        rw [if_neg (by simp_all), hms] at h
        cases h

/-- Python `value % 1 == 0` holds exactly for the mathematical integers. -/
theorem pyModOne_eq_zero_iff (q : ℚ) : pyModOne q = 0 ↔ ∃ m : ℤ, q = (m : ℚ) := by
  unfold pyModOne
  constructor
  · intro h
    exact ⟨⌊q⌋, sub_eq_zero.mp h⟩
  · rintro ⟨m, rfl⟩
    simp

/-- `litOk` holds exactly when any literal parameter is matched. -/
theorem litOk_iff (val : Option ℚ) (q : ℚ) :
    litOk val q = true ↔ ∀ c, val = some c → q = c := by
  cases val with
  | none => simp [litOk]
  | some c => simp [litOk]

/-- Characterization of the numeric part of `IntType.check` under
orderable bounds: accepted exactly when the fractional part is zero, the
range (when given) accepts, and the literal (when given) is matched. -/
theorem intCheckNum_spec (val : Option ℚ) (rng : Option RangeDict) (q : ℚ)
    (h : rangeOkOpt rng = true) :
    ∃ b, intCheckNum val rng q = .ok b ∧
      (b = true ↔ (pyModOne q = 0 ∧
        (∀ r, rng = some r → check_range r q = .ok true) ∧
        (∀ c, val = some c → q = c))) := by
  by_cases hm : pyModOne q = 0
  · have hm' : (pyModOne q != 0) = false := by simp [hm]
    cases rng with
    | none =>
        refine ⟨litOk val q, by simp [intCheckNum, hm'], ?_⟩
        rw [litOk_iff]
        simp [hm]
    | some r =>
        obtain ⟨rb, hrb⟩ := check_range_total r (by simpa [rangeOkOpt] using h) q
        cases rb with
        | false =>
            refine ⟨false, by simp [intCheckNum, hm', hrb], ?_⟩
            simp only [Bool.false_eq_true, false_iff]
            rintro ⟨-, hr, -⟩
            have := hr r rfl
            rw [hrb] at this
            simp at this
        | true =>
            refine ⟨litOk val q, by simp [intCheckNum, hm', hrb], ?_⟩
            rw [litOk_iff]
            constructor
            · intro hv
              exact ⟨hm, by intro r2 hr2; cases hr2; exact hrb, hv⟩
            · rintro ⟨-, -, hv⟩
              exact hv
  · have hm' : (pyModOne q != 0) = true := by simpa using hm
    refine ⟨false, by simp [intCheckNum, hm'], ?_⟩
    simp only [Bool.false_eq_true, false_iff]
    rintro ⟨hz, -, -⟩
    exact hm hz

/-- Claim C6: an //int validator (with orderable range bounds) accepts a
value exactly when it is a number that is not a boolean, has zero
fractional part, satisfies the range parameter when one was given, and
equals the value parameter exactly when one was given. -/
theorem claim_C6_int_semantics (val : Option ℚ) (rng : Option RangeDict) (v : Value)
    (h : rangeOkOpt rng = true) :
    ∃ b, check (.int val rng) v = .ok b ∧
      (b = true ↔ ∃ q, v = .num q ∧ (∃ m : ℤ, q = (m : ℚ)) ∧
        (∀ r, rng = some r → check_range r q = .ok true) ∧
        (∀ c, val = some c → q = c)) := by
  cases v with
  | num q =>
      obtain ⟨b, hb, hiff⟩ := intCheckNum_spec val rng q h
      refine ⟨b, by simpa [check] using hb, ?_⟩
      rw [hiff]
      constructor
      · rintro ⟨h1, h2, h3⟩
        exact ⟨q, rfl, (pyModOne_eq_zero_iff q).mp h1, h2, h3⟩
      · rintro ⟨q2, hq2, h1, h2, h3⟩
        cases hq2
        exact ⟨(pyModOne_eq_zero_iff q).mpr h1, h2, h3⟩
  | null => exact ⟨false, by simp [check], by simp⟩
  | bool b => exact ⟨false, by simp [check], by simp⟩
  | str s => exact ⟨false, by simp [check], by simp⟩
  | arr xs => exact ⟨false, by simp [check], by simp⟩
  | dict m => exact ⟨false, by simp [check], by simp⟩

/-- Witness for claim C6: the schema with value parameter 5 accepts the
number 5. -/
theorem claim_C6_int_semantics_witness :
    rangeOkOpt none = true ∧
    ∃ b, check (.int (some 5) none) (.num 5) = .ok b ∧
      (b = true ↔ ∃ q, Value.num 5 = .num q ∧ (∃ m : ℤ, q = (m : ℚ)) ∧
        (∀ r, (none : Option RangeDict) = some r → check_range r q = .ok true) ∧
        (∀ c, (some (5 : ℚ)) = some c → q = c)) :=
  ⟨rfl, claim_C6_int_semantics (some 5) none (.num 5) rfl⟩

/-- `lenLt` mirrors `<` on lengths. -/
theorem lenLt_iff (a b : Nat) : lenLt a b = true ↔ a < b := by
  simp [lenLt]

/-- Characterization of the //seq positional loop under `rangesOk`: it
answers true exactly when every schema accepts the element at its own
position. -/
theorem checkZip_spec : ∀ (ss : List Schema) (xs : List Value),
    rangesOkList ss = true → ss.length ≤ xs.length →
    ∃ b, checkZip ss xs = .ok b ∧
      (b = true ↔ ∀ i (h1 : i < ss.length) (h2 : i < xs.length),
        check (ss.get ⟨i, h1⟩) (xs.get ⟨i, h2⟩) = .ok true)
  | [], xs, _, _ => ⟨true, by simp [checkZip], by simp⟩
  | s :: ss, [], _, hlen => by simp at hlen
  | s :: ss, x :: xs, h, hlen => by
      have hs : rangesOk s = true := by
        simp [rangesOkList, Bool.and_eq_true] at h; exact h.1
      have hss : rangesOkList ss = true := by
        simp [rangesOkList, Bool.and_eq_true] at h; exact h.2
      obtain ⟨b, hb⟩ := check_total s x hs
      cases b with
      | false =>
          refine ⟨false, by simp [checkZip, hb], ?_⟩
          simp only [Bool.false_eq_true, false_iff]
          intro hall
          have h0 : check s x = Except.ok true := hall 0 (by simp) (by simp)
          rw [hb] at h0
          simp at h0
      | true =>
          obtain ⟨b2, hb2, hiff2⟩ := checkZip_spec ss xs hss (by simpa using hlen)
          refine ⟨b2, by simp [checkZip, hb, hb2], ?_⟩
          rw [hiff2]
          constructor
          · intro hall i h1 h2
            cases i with
            | zero => exact hb
            | succ n => exact hall n (by simpa using h1) (by simpa using h2)
          · intro hall i h1 h2
            exact hall (i + 1) (by simpa using h1) (by simpa using h2)

/-- Claim C4: a //seq validator (with orderable range bounds) rejects
non-sequences and too-short sequences; on a sequence at least as long as
`contents` it accepts exactly when each of the first N elements satisfies
the schema at its position and, beyond that, either the value has exactly
N elements (the tail is not consulted) or a tail schema is present and
accepts the remaining suffix as a sequence. -/
theorem claim_C4_seq_semantics (contents : List Schema) (tail : Option Schema)
    (v : Value) (h : rangesOk (.seq contents tail) = true) :
    ∃ b, check (.seq contents tail) v = .ok b ∧
      (b = true ↔ ∃ xs, v = .arr xs ∧ contents.length ≤ xs.length ∧
        (∀ i (h1 : i < contents.length) (h2 : i < xs.length),
          check (contents.get ⟨i, h1⟩) (xs.get ⟨i, h2⟩) = .ok true) ∧
        (xs.length = contents.length ∨
          ∃ t, tail = some t ∧
            check t (.arr (xs.drop contents.length)) = .ok true)) := by
  have hcs : rangesOkList contents = true := by
    simp [rangesOk, Bool.and_eq_true] at h; exact h.1
  have ht : rangesOkMaybe tail = true := by
    simp [rangesOk, Bool.and_eq_true] at h; exact h.2
  cases v with
  | arr xs =>
      cases hl : lenLt xs.length contents.length with
      | true =>
          have hlt : xs.length < contents.length := (lenLt_iff _ _).mp hl
          refine ⟨false, by cases tail <;> simp [check, hl], ?_⟩
          simp only [Bool.false_eq_true, false_iff]
          rintro ⟨xs2, hxs2, hle, -, -⟩
          cases hxs2
          omega
      | false =>
          have hle : contents.length ≤ xs.length := by
            have hiffl := lenLt_iff xs.length contents.length
            rw [hl] at hiffl
            simp at hiffl
            omega
          obtain ⟨b1, hb1, hiff1⟩ := checkZip_spec contents xs hcs hle
          cases b1 with
          | false =>
              refine ⟨false, by cases tail <;> simp [check, hl, hb1], ?_⟩
              simp only [Bool.false_eq_true, false_iff]
              rintro ⟨xs2, hxs2, -, hall, -⟩
              cases hxs2
              simpa using hiff1.mpr hall
          | true =>
              have hall := hiff1.mp rfl
              cases hg : lenLt contents.length xs.length with
              | false =>
                  have heq : xs.length = contents.length := by
                    have hiffg := lenLt_iff contents.length xs.length
                    rw [hg] at hiffg
                    simp at hiffg
                    omega
                  refine ⟨true, by cases tail <;> simp [check, hl, hb1, hg], ?_⟩
                  simp only [true_iff]
                  exact ⟨xs, rfl, hle, hall, Or.inl heq⟩
              | true =>
                  have hgt : contents.length < xs.length := (lenLt_iff _ _).mp hg
                  cases tail with
                  | none =>
                      refine ⟨false, by simp [check, hl, hb1, hg], ?_⟩
                      simp only [Bool.false_eq_true, false_iff]
                      rintro ⟨xs2, hxs2, -, -, hlast⟩
                      cases hxs2
                      rcases hlast with heq | ⟨t, htt, -⟩
                      · omega
                      · cases htt
                  | some t =>
                      obtain ⟨tb, htb⟩ := check_total t (.arr (xs.drop contents.length))
                        (by simpa [rangesOkMaybe] using ht)
                      cases tb with
                      | false =>
                          refine ⟨false, by simp [check, hl, hb1, hg, htb], ?_⟩
                          simp only [Bool.false_eq_true, false_iff]
                          rintro ⟨xs2, hxs2, -, -, hlast⟩
                          cases hxs2
                          rcases hlast with heq | ⟨t2, htt, htc⟩
                          · omega
                          · cases htt
                            rw [htb] at htc
                            simp at htc
                      | true =>
                          refine ⟨true, by simp [check, hl, hb1, hg, htb], ?_⟩
                          simp only [true_iff]
                          exact ⟨xs, rfl, hle, hall, Or.inr ⟨t, rfl, htb⟩⟩
  | null => exact ⟨false, by cases tail <;> simp [check], by simp⟩
  | bool b => exact ⟨false, by cases tail <;> simp [check], by simp⟩
  | num q => exact ⟨false, by cases tail <;> simp [check], by simp⟩
  | str s => exact ⟨false, by cases tail <;> simp [check], by simp⟩
  | dict m => exact ⟨false, by cases tail <;> simp [check], by simp⟩

/-- Witness for claim C4 at the two-schema sequence of the spec example. -/
theorem claim_C4_seq_semantics_witness :
    rangesOk (.seq [.num none none, .str none none] none) = true ∧
    ∃ b, check (.seq [.num none none, .str none none] none)
        (.arr [.num 1, .str "a"]) = .ok b ∧
      (b = true ↔ ∃ xs, (Value.arr [.num 1, .str "a"]) = .arr xs ∧
        ([Schema.num none none, .str none none].length ≤ xs.length) ∧
        (∀ i (h1 : i < [Schema.num none none, .str none none].length)
            (h2 : i < xs.length),
          check ([Schema.num none none, .str none none].get ⟨i, h1⟩)
              (xs.get ⟨i, h2⟩) = .ok true) ∧
        (xs.length = [Schema.num none none, .str none none].length ∨
          ∃ t, (none : Option Schema) = some t ∧
            check t (.arr (xs.drop [Schema.num none none, .str none none].length))
              = .ok true)) :=
  ⟨by simp [rangesOk, rangesOkList, rangesOkMaybe, rangeOkOpt],
   claim_C4_seq_semantics [.num none none, .str none none] none
     (.arr [.num 1, .str "a"])
     (by simp [rangesOk, rangesOkList, rangesOkMaybe, rangeOkOpt])⟩

/-- Characterization of the //rec required loop under `rangesOk`: true
exactly when every required field is present and valid. -/
theorem checkReq_spec : ∀ (rs : List (String × Schema)) (entries : List (String × Value)),
    rangesOkFields rs = true →
    ∃ b, checkReq rs entries = .ok b ∧
      (b = true ↔ ∀ p ∈ rs, ∃ w, dictGet entries p.1 = some w ∧ check p.2 w = .ok true)
  | [], entries, _ => ⟨true, by simp [checkReq], by simp⟩
  | (fld, s) :: rest, entries, h => by
      have hs : rangesOk s = true := by
        simp [rangesOkFields, Bool.and_eq_true] at h; exact h.1
      have hr : rangesOkFields rest = true := by
        simp [rangesOkFields, Bool.and_eq_true] at h; exact h.2
      cases hw : dictGet entries fld with
      | none =>
          refine ⟨false, by simp [checkReq, hw], ?_⟩
          simp only [Bool.false_eq_true, false_iff]
          intro hall
          obtain ⟨w, hw2, -⟩ := hall (fld, s) (by simp)
          rw [hw] at hw2
          cases hw2
      | some w =>
          obtain ⟨b, hb⟩ := check_total s w hs
          cases b with
          | false =>
              refine ⟨false, by simp [checkReq, hw, hb], ?_⟩
              simp only [Bool.false_eq_true, false_iff]
              intro hall
              obtain ⟨w2, hw2, hc2⟩ := hall (fld, s) (by simp)
              rw [hw] at hw2
              cases hw2
              rw [hb] at hc2
              simp at hc2
          | true =>
              obtain ⟨b2, hb2, hiff2⟩ := checkReq_spec rest entries hr
              refine ⟨b2, by simp [checkReq, hw, hb, hb2], ?_⟩
              rw [hiff2]
              constructor
              · intro hall p hp
                rcases List.mem_cons.mp hp with heq | hmem
                · subst heq
                  exact ⟨w, hw, hb⟩
                · exact hall p hmem
              · intro hall p hp
                exact hall p (List.mem_cons_of_mem _ hp)

/-- Characterization of the //rec optional loop under `rangesOk`: true
exactly when every present optional field is valid. -/
theorem checkOpt_spec : ∀ (rs : List (String × Schema)) (entries : List (String × Value)),
    rangesOkFields rs = true →
    ∃ b, checkOpt rs entries = .ok b ∧
      (b = true ↔ ∀ p ∈ rs, ∀ w, dictGet entries p.1 = some w → check p.2 w = .ok true)
  | [], entries, _ => ⟨true, by simp [checkOpt], by simp⟩
  | (fld, s) :: rest, entries, h => by
      have hs : rangesOk s = true := by
        simp [rangesOkFields, Bool.and_eq_true] at h; exact h.1
      have hr : rangesOkFields rest = true := by
        simp [rangesOkFields, Bool.and_eq_true] at h; exact h.2
      cases hw : dictGet entries fld with
      | none =>
          obtain ⟨b2, hb2, hiff2⟩ := checkOpt_spec rest entries hr
          refine ⟨b2, by simp [checkOpt, hw, hb2], ?_⟩
          rw [hiff2]
          constructor
          · intro hall p hp
            rcases List.mem_cons.mp hp with heq | hmem
            · subst heq
              intro w2 hw2
              rw [hw] at hw2
              cases hw2
            · exact hall p hmem
          · intro hall p hp
            exact hall p (List.mem_cons_of_mem _ hp)
      | some w =>
          obtain ⟨b, hb⟩ := check_total s w hs
          cases b with
          | false =>
              refine ⟨false, by simp [checkOpt, hw, hb], ?_⟩
              simp only [Bool.false_eq_true, false_iff]
              intro hall
              have hc2 := hall (fld, s) (by simp) w hw
              rw [hb] at hc2
              simp at hc2
          | true =>
              obtain ⟨b2, hb2, hiff2⟩ := checkOpt_spec rest entries hr
              refine ⟨b2, by simp [checkOpt, hw, hb, hb2], ?_⟩
              rw [hiff2]
              constructor
              · intro hall p hp
                rcases List.mem_cons.mp hp with heq | hmem
                · subst heq
                  intro w2 hw2
                  rw [hw] at hw2
                  cases hw2
                  exact hb
                · exact hall p hmem
              · intro hall p hp
                exact hall p (List.mem_cons_of_mem _ hp)

/-- Claim C5: a //rec validator (with orderable range bounds, and with
its known-field set equal to the required and optional field names as
compilation builds it) accepts a value exactly when it is a keyed mapping
where every required field is present and valid, every present optional
field is valid, and the unknown fields (named in neither set) either do
not exist or, when a rest schema is present, collectively satisfy it as a
sub-mapping; unknown fields without a rest schema reject. -/
theorem claim_C5_rec_semantics (req opt : List (String × Schema)) (rest : Option Schema)
    (v : Value)
    (h : rangesOk (.recT req opt rest (req.map Prod.fst ++ opt.map Prod.fst)) = true) :
    ∃ b, check (.recT req opt rest (req.map Prod.fst ++ opt.map Prod.fst)) v = .ok b ∧
      (b = true ↔ ∃ entries, v = .dict entries ∧
        (∀ p ∈ req, ∃ w, dictGet entries p.1 = some w ∧ check p.2 w = .ok true) ∧
        (∀ p ∈ opt, ∀ w, dictGet entries p.1 = some w → check p.2 w = .ok true) ∧
        (recUnknown (req.map Prod.fst ++ opt.map Prod.fst) entries = [] ∨
         ∃ rs, rest = some rs ∧
           check rs (.dict (recUnknown (req.map Prod.fst ++ opt.map Prod.fst) entries))
             = .ok true)) := by
  have hreq : rangesOkFields req = true := by
    simp [rangesOk, Bool.and_eq_true] at h; exact h.1.1
  have hopt : rangesOkFields opt = true := by
    simp [rangesOk, Bool.and_eq_true] at h; exact h.1.2
  have hrest : rangesOkMaybe rest = true := by
    simp [rangesOk, Bool.and_eq_true] at h; exact h.2
  cases v with
  | dict entries =>
      cases hnr : recNoRest (req.map Prod.fst ++ opt.map Prod.fst) rest entries with
      | true =>
          have h2 := hnr
          simp only [recNoRest, Bool.and_eq_true, bne_iff_ne, Bool.not_eq_eq_eq_not,
            Bool.not_true, Option.isNone_iff_eq_none] at h2
          refine ⟨false, by simp [check, hnr], ?_⟩
          simp only [Bool.false_eq_true, false_iff]
          rintro ⟨e2, he2, -, -, hlast⟩
          cases he2
          rcases hlast with hemp | ⟨rs, hrs, -⟩
          · rw [hemp] at h2
            simp at h2
          · rw [h2.2] at hrs
            cases hrs
      | false =>
          obtain ⟨b1, hb1, hiff1⟩ := checkReq_spec req entries hreq
          cases b1 with
          | false =>
              refine ⟨false, by simp [check, hnr, checkRecFields, hb1], ?_⟩
              simp only [Bool.false_eq_true, false_iff]
              rintro ⟨e2, he2, hreqall, -, -⟩
              cases he2
              simpa using hiff1.mpr hreqall
          | true =>
              obtain ⟨b2, hb2, hiff2⟩ := checkOpt_spec opt entries hopt
              cases b2 with
              | false =>
                  refine ⟨false,
                    by simp [check, hnr, checkRecFields, hb1, checkRecOpt, hb2], ?_⟩
                  simp only [Bool.false_eq_true, false_iff]
                  rintro ⟨e2, he2, -, hoptall, -⟩
                  cases he2
                  simpa using hiff2.mpr hoptall
              | true =>
                  cases hu : recUnknown (req.map Prod.fst ++ opt.map Prod.fst) entries with
                  | nil =>
                      refine ⟨true,
                        by simp [check, hnr, checkRecFields, hb1, checkRecOpt, hb2,
                          checkRecRest, hu], ?_⟩
                      simp only [true_iff]
                      exact ⟨entries, rfl, hiff1.mp rfl, hiff2.mp rfl, Or.inl hu⟩
                  | cons p ps =>
                      cases rest with
                      | none =>
                          have hcontr :
                              recNoRest (req.map Prod.fst ++ opt.map Prod.fst)
                                none entries = true := by
                            simp [recNoRest, hu]
                          rw [hnr] at hcontr
                          cases hcontr
                      | some rs =>
                          obtain ⟨b3, hb3⟩ := check_total rs (.dict (p :: ps))
                            (by simpa [rangesOkMaybe] using hrest)
                          cases b3 with
                          | false =>
                              refine ⟨false,
                                by simp [check, hnr, checkRecFields, hb1, checkRecOpt,
                                  hb2, checkRecRest, hu, hb3], ?_⟩
                              simp only [Bool.false_eq_true, false_iff]
                              rintro ⟨e2, he2, -, -, hlast⟩
                              cases he2
                              rcases hlast with hemp | ⟨rs2, hrs2, hcheck⟩
                              · rw [hu] at hemp
                                cases hemp
                              · cases hrs2
                                rw [hu, hb3] at hcheck
                                simp at hcheck
                          | true =>
                              refine ⟨true,
                                by simp [check, hnr, checkRecFields, hb1, checkRecOpt,
                                  hb2, checkRecRest, hu, hb3], ?_⟩
                              simp only [true_iff]
                              refine ⟨entries, rfl, hiff1.mp rfl, hiff2.mp rfl,
                                Or.inr ⟨rs, rfl, ?_⟩⟩
                              rw [hu]
                              exact hb3
  | null => exact ⟨false, by simp [check], by simp⟩
  | bool b => exact ⟨false, by simp [check], by simp⟩
  | num q => exact ⟨false, by simp [check], by simp⟩
  | str s => exact ⟨false, by simp [check], by simp⟩
  | arr xs => exact ⟨false, by simp [check], by simp⟩

/-- Witness for claim C5 at the record of the spec example:
required name//str on the mapping with name "Ada". -/
theorem claim_C5_rec_semantics_witness :
    rangesOk (.recT [("name", .str none none)] [] none
      ([("name", Schema.str none none)].map Prod.fst ++
        ([] : List (String × Schema)).map Prod.fst)) = true ∧
    ∃ b, check (.recT [("name", .str none none)] [] none
        ([("name", Schema.str none none)].map Prod.fst ++
          ([] : List (String × Schema)).map Prod.fst))
        (.dict [("name", .str "Ada")]) = .ok b ∧
      (b = true ↔ ∃ entries, (Value.dict [("name", .str "Ada")]) = .dict entries ∧
        (∀ p ∈ [("name", Schema.str none none)],
          ∃ w, dictGet entries p.1 = some w ∧ check p.2 w = .ok true) ∧
        (∀ p ∈ ([] : List (String × Schema)),
          ∀ w, dictGet entries p.1 = some w → check p.2 w = .ok true) ∧
        (recUnknown ([("name", Schema.str none none)].map Prod.fst ++
            ([] : List (String × Schema)).map Prod.fst) entries = [] ∨
         ∃ rs, (none : Option Schema) = some rs ∧
           check rs (.dict (recUnknown
             ([("name", Schema.str none none)].map Prod.fst ++
               ([] : List (String × Schema)).map Prod.fst) entries)) = .ok true)) :=
  ⟨by simp [rangesOk, rangesOkFields, rangesOkMaybe, rangeOkOpt],
   claim_C5_rec_semantics [("name", .str none none)] [] none
     (.dict [("name", .str "Ada")])
     (by simp [rangesOk, rangesOkFields, rangesOkMaybe, rangeOkOpt])⟩

/-- Witness for claim C9: learning a type whose definition is the bare
number 3 fails to compile, and the factory is unchanged. -/
theorem claim_C9_learn_type_preserves_witness :
    (learn_type 1 baseFactory "tag:x:/y" (.num 3)).1
      = .error (.rxError "invalid schema argument to make_schema") ∧
    (learn_type 1 baseFactory "tag:x:/y" (.num 3)).2 = baseFactory :=
  ⟨rfl, claim_C9_learn_type_preserves 1 baseFactory "tag:x:/y" (.num 3)
     (.rxError "invalid schema argument to make_schema") rfl⟩
